import Mathlib

set_option maxHeartbeats 1000000

/-!
Shallow embedding of the kvalog logging core (src/kvalog/kvalog.hpp), a
header-only logging facade over spdlog and nlohmann::json, together with
proofs about its record formatting, level filtering, sink dispatch and
asynchronous delivery model.
-/

/-- Log levels matching spdlog (enum class LogLevel in kvalog.hpp). -/
inductive LogLevel where
  | Off
  | Trace
  | Debug
  | Info
  | Warning
  | Error
  | Critical
deriving DecidableEq, Repr

/-- Configuration of which fields to include in logs (struct LogFieldConfig),
field order and defaults as in the source. -/
structure LogFieldConfig where
  includeAppName : Bool := true
  includeProcessId : Bool := true
  includeThreadId : Bool := true
  includeModuleName : Bool := true
  includeLogLevel : Bool := true
  includeFile : Bool := true
  includeMessage : Bool := true
  includeTime : Bool := true
deriving DecidableEq, Repr

/-- Output format type (enum class OutputFormat). -/
inductive OutputFormat where
  | Json
  | Terminal
deriving DecidableEq, Repr

/-- Context information for logs (Logger::Context). -/
structure Context where
  appName : String := ""
  moduleName : String := ""
deriving DecidableEq, Repr

/-- Call-site data captured by std::source_location: file name and line.
The source only reads file_name() and line(). -/
structure SourceLocation where
  file_name : String
  line : Nat
deriving DecidableEq, Repr

/-- Environment snapshot for the external primitives the formatter reads:
getCurrentTimeString (wall-clock rendering), getThreadId (stream rendering
of std::this_thread::get_id) and getProcessId (getpid). These are outside
the core per the spec; the formatter consumes their rendered values. -/
structure Env where
  timeString : String
  threadId : String
  processId : Int
deriving DecidableEq, Repr

/-- A JSON value as used by formatJson. Only string values are ever stored
by the source, but the number constructor is kept so that the claim that
process and thread ids are strings rather than numbers is expressible. -/
inductive JsonValue where
  | str : String → JsonValue
  | num : Int → JsonValue
deriving DecidableEq, Repr

/-- A JSON object as a key-value sequence (nlohmann::json object; the claims
here concern its key set and the values bound to keys, not key ordering). -/
abbrev JsonObj : Type := List (String × JsonValue)

/-- Assignment log_entry[k] = v on an nlohmann::json object: replaces the
value if the key is present, otherwise adds the key. -/
def jsonInsert (obj : JsonObj) (k : String) (v : JsonValue) : JsonObj :=
  if (List.any obj (fun p => p.1 == k)) then
    List.map (fun p => if p.1 == k then (k, v) else p) obj
  else obj ++ [(k, v)]

/-- Characters of a file path after the last path separator, mirroring
find_last_of of slash or backslash followed by substr(pos + 1): scanning
left to right, every separator resets the accumulator. -/
def afterLastPathSep (cs : List Char) : List Char :=
  cs.foldl (fun acc c => if c = '/' ∨ c = '\\' then [] else acc ++ [c]) []

/-- Logger::formatFileLine: strips any directory from the file name and
appends a colon and the line number. -/
def formatFileLine (loc : SourceLocation) : String :=
  String.mk (afterLastPathSep loc.file_name.data) ++ ":" ++ toString loc.line

/-- Logger::levelToString: fixed 3-letter severity codes; the default switch
branch (covering Off) yields INF. -/
def levelToString (level : LogLevel) : String :=
  match level with
  | LogLevel.Trace => "TRC"
  | LogLevel.Debug => "DBG"
  | LogLevel.Info => "INF"
  | LogLevel.Warning => "WRN"
  | LogLevel.Error => "ERR"
  | LogLevel.Critical => "CRT"
  | LogLevel.Off => "INF"

/-- One conditional assignment statement of formatJson: when the flag is
true, assign log_entry[k] = v, otherwise leave the object unchanged. -/
def jsonStep (flag : Bool) (k : String) (v : JsonValue) (obj : JsonObj) : JsonObj :=
  if flag then jsonInsert obj k v else obj

/-- One guarded conditional assignment of formatJson for the app and module
keys: the assignment additionally requires the context string non-empty. -/
def jsonStepNonEmpty (flag : Bool) (k : String) (s : String) (obj : JsonObj) : JsonObj :=
  if flag then (if s.isEmpty then obj else jsonInsert obj k (JsonValue.str s)) else obj

/-- Logger::formatJson: builds the structured log object by a sequence of
conditional key assignments, in source order (innermost first): time, app
(only when the context app name is non-empty), process_id, thread_id,
module (only when the context module name is non-empty), level, file,
message. Process id is assigned as std::to_string of the pid and thread id
as the rendered string, so both are string values. -/
def formatJson (fields : LogFieldConfig) (ctx : Context) (env : Env)
    (level : LogLevel) (message : String) (loc : SourceLocation) : JsonObj :=
  jsonStep fields.includeMessage "message" (JsonValue.str message)
    (jsonStep fields.includeFile "file" (JsonValue.str (formatFileLine loc))
      (jsonStep fields.includeLogLevel "level" (JsonValue.str (levelToString level))
        (jsonStepNonEmpty fields.includeModuleName "module" ctx.moduleName
          (jsonStep fields.includeThreadId "thread_id" (JsonValue.str env.threadId)
            (jsonStep fields.includeProcessId "process_id" (JsonValue.str (toString env.processId))
              (jsonStepNonEmpty fields.includeAppName "app" ctx.appName
                (jsonStep fields.includeTime "time" (JsonValue.str env.timeString) [])))))))

/-- One conditional assignment of formatJson abstracted as a triple of its
flag, key and value, for reasoning about the assignment sequence. -/
structure JStep where
  flag : Bool
  key : String
  val : JsonValue

/-- Run a sequence of conditional assignments on an object, first step first,
exactly as the statement sequence of formatJson executes. -/
def runSteps (obj : JsonObj) (steps : List JStep) : JsonObj :=
  steps.foldl (fun o s => jsonStep s.flag s.key s.val o) obj

/-- Keys of a JSON object, in insertion order. -/
def keysOf (obj : JsonObj) : List String := obj.map Prod.fst

/-- A guarded assignment equals a plain conditional assignment whose flag is
conjoined with non-emptiness of the context string. -/
theorem jsonStepNonEmpty_eq (flag : Bool) (k : String) (s : String) (obj : JsonObj) :
    jsonStepNonEmpty flag k s obj = jsonStep (flag && !s.isEmpty) k (JsonValue.str s) obj := by
  cases flag <;> cases h : s.isEmpty <;> simp [jsonStepNonEmpty, jsonStep, h]

/-- A key absent from every entry of an object makes the membership test of
jsonInsert come out false. -/
theorem any_key_eq_false (obj : JsonObj) (k : String) (h : ∀ p ∈ obj, p.1 ≠ k) :
    List.any obj (fun p => p.1 == k) = false := by
  rw [Bool.eq_false_iff]
  intro hx
  rw [List.any_eq_true] at hx
  obtain ⟨p, hp, he⟩ := hx
  exact h p hp (by simpa using he)

/-- Assigning a fresh key appends the pair at the end of the object. -/
theorem jsonInsert_fresh (obj : JsonObj) (k : String) (v : JsonValue)
    (h : ∀ p ∈ obj, p.1 ≠ k) : jsonInsert obj k v = obj ++ [(k, v)] := by
  simp [jsonInsert, any_key_eq_false obj k h]

/-- Running a sequence of conditional assignments with pairwise distinct keys,
all fresh for the starting object, yields exactly the starting keys followed
by the keys of the steps whose flag is set, in sequence order. -/
theorem runSteps_keys (steps : List JStep) (obj : JsonObj)
    (hfresh : ∀ s ∈ steps, ∀ p ∈ obj, p.1 ≠ s.key)
    (hnodup : (steps.map JStep.key).Nodup) :
    keysOf (runSteps obj steps) =
      keysOf obj ++ (List.filter (fun s => s.flag) steps).map JStep.key := by
  induction steps generalizing obj with
  | nil => simp [runSteps, keysOf]
  | cons s rest ih =>
    have hrun : runSteps obj (s :: rest) = runSteps (jsonStep s.flag s.key s.val obj) rest := rfl
    rw [hrun]
    simp only [List.map_cons, List.nodup_cons] at hnodup
    cases hf : s.flag with
    | false =>
      have hstep : jsonStep false s.key s.val obj = obj := by simp [jsonStep]
      rw [hstep, ih obj (fun t ht p hp => hfresh t (List.mem_cons_of_mem s ht) p hp) hnodup.2]
      simp [List.filter_cons, hf]
    | true =>
      have hstep : jsonStep true s.key s.val obj = obj ++ [(s.key, s.val)] := by
        simp [jsonStep, jsonInsert_fresh obj s.key s.val
          (fun p hp => hfresh s (List.mem_cons_self s rest) p hp)]
      rw [hstep]
      have hfresh' : ∀ t ∈ rest, ∀ p ∈ obj ++ [(s.key, s.val)], p.1 ≠ t.key := by
        intro t ht p hp
        rcases List.mem_append.mp hp with hl | hr
        · exact hfresh t (List.mem_cons_of_mem s ht) p hl
        · have hps : p = (s.key, s.val) := by simpa using hr
          subst hps
          intro hc
          apply hnodup.1
          rw [show s.key = t.key from hc]
          exact List.mem_map_of_mem JStep.key ht
      rw [ih (obj ++ [(s.key, s.val)]) hfresh' hnodup.2]
      simp [keysOf, List.filter_cons, hf, List.append_assoc]

/-- The assignment sequence of formatJson, as step data: flags, keys and
values in source statement order, with the app and module guards folded into
their flags. -/
def formatJsonSteps (fields : LogFieldConfig) (ctx : Context) (env : Env)
    (level : LogLevel) (message : String) (loc : SourceLocation) : List JStep :=
  [⟨fields.includeTime, "time", JsonValue.str env.timeString⟩,
   ⟨fields.includeAppName && !ctx.appName.isEmpty, "app", JsonValue.str ctx.appName⟩,
   ⟨fields.includeProcessId, "process_id", JsonValue.str (toString env.processId)⟩,
   ⟨fields.includeThreadId, "thread_id", JsonValue.str env.threadId⟩,
   ⟨fields.includeModuleName && !ctx.moduleName.isEmpty, "module", JsonValue.str ctx.moduleName⟩,
   ⟨fields.includeLogLevel, "level", JsonValue.str (levelToString level)⟩,
   ⟨fields.includeFile, "file", JsonValue.str (formatFileLine loc)⟩,
   ⟨fields.includeMessage, "message", JsonValue.str message⟩]

/-- formatJson is the run of its assignment sequence from the empty object. -/
theorem formatJson_eq_runSteps (fields : LogFieldConfig) (ctx : Context) (env : Env)
    (level : LogLevel) (message : String) (loc : SourceLocation) :
    formatJson fields ctx env level message loc =
      runSteps [] (formatJsonSteps fields ctx env level message loc) := by
  simp only [formatJson, runSteps, formatJsonSteps, List.foldl, jsonStepNonEmpty_eq]

/-- Key set the specification prescribes for the structured shape: exactly
the keys whose flag is true, drawn from the fixed key set, except that app
and module are omitted entirely when the corresponding context string is
empty. Stated as a list in the fixed key order. -/
def specJsonKeys (fields : LogFieldConfig) (ctx : Context) : List String :=
  (if fields.includeTime then ["time"] else []) ++
  (if fields.includeAppName && !ctx.appName.isEmpty then ["app"] else []) ++
  (if fields.includeProcessId then ["process_id"] else []) ++
  (if fields.includeThreadId then ["thread_id"] else []) ++
  (if fields.includeModuleName && !ctx.moduleName.isEmpty then ["module"] else []) ++
  (if fields.includeLogLevel then ["level"] else []) ++
  (if fields.includeFile then ["file"] else []) ++
  (if fields.includeMessage then ["message"] else [])

/-- C1: for every field selection, context, severity, call site and message,
the structured formatter produces an object whose keys are exactly those
whose flag is true, drawn from the fixed key set time, app, process_id,
thread_id, module, level, file, message, with app omitted entirely when the
context app name is empty and module omitted entirely when the context
module name is empty, even when their flags are true. -/
theorem formatJson_exact_keys (fields : LogFieldConfig) (ctx : Context) (env : Env)
    (level : LogLevel) (message : String) (loc : SourceLocation) :
    (formatJson fields ctx env level message loc).map Prod.fst = specJsonKeys fields ctx := by
  have h := runSteps_keys (formatJsonSteps fields ctx env level message loc) []
    (by intro s hs p hp; cases hp)
    (by simp [formatJsonSteps])
  rw [show (formatJson fields ctx env level message loc).map Prod.fst
      = keysOf (formatJson fields ctx env level message loc) from rfl,
    formatJson_eq_runSteps, h]
  rcases fields with ⟨fa, fp, ft, fm, fl, ff, fmsg, ftime⟩
  rcases ctx with ⟨app, mod⟩
  simp only [formatJsonSteps, specJsonKeys]
  cases ha : app.isEmpty <;> cases hm : mod.isEmpty <;>
    cases fa <;> cases fp <;> cases ft <;> cases fm <;>
    cases fl <;> cases ff <;> cases fmsg <;> cases ftime <;> rfl

/-- The bracket-wrapping helper of formatTerminal (the local lambda the
source calls on each field before streaming it). -/
def bracketed (content : String) : String := "[" ++ content ++ "]"

/-- Logger::formatTerminal: streams the enabled fields in source order --
time, app (when non-empty), module (when non-empty), process id with PID
marker, thread id with TID marker, level code, file:line -- each wrapped in
brackets, then the message preceded by one space when its flag is set. -/
def formatTerminal (fields : LogFieldConfig) (ctx : Context) (env : Env)
    (level : LogLevel) (message : String) (loc : SourceLocation) : String :=
  (if fields.includeTime then bracketed env.timeString else "") ++
  (if fields.includeAppName then (if ctx.appName.isEmpty then "" else bracketed ctx.appName) else "") ++
  (if fields.includeModuleName then (if ctx.moduleName.isEmpty then "" else bracketed ctx.moduleName) else "") ++
  (if fields.includeProcessId then bracketed ("PID:" ++ toString env.processId) else "") ++
  (if fields.includeThreadId then bracketed ("TID:" ++ env.threadId) else "") ++
  (if fields.includeLogLevel then bracketed (levelToString level) else "") ++
  (if fields.includeFile then bracketed (formatFileLine loc) else "") ++
  (if fields.includeMessage then " " ++ message else "")

/-- Field contents the specification prescribes for the human shape, in the
fixed order time, app, module, process id, thread id, level, file:line,
keeping only the non-empty ones. -/
def specTerminalParts (fields : LogFieldConfig) (ctx : Context) (env : Env)
    (level : LogLevel) (loc : SourceLocation) : List String :=
  ((if fields.includeTime then [env.timeString] else []) ++
   (if fields.includeAppName then [ctx.appName] else []) ++
   (if fields.includeModuleName then [ctx.moduleName] else []) ++
   (if fields.includeProcessId then ["PID:" ++ toString env.processId] else []) ++
   (if fields.includeThreadId then ["TID:" ++ env.threadId] else []) ++
   (if fields.includeLogLevel then [levelToString level] else []) ++
   (if fields.includeFile then [formatFileLine loc] else [])).filter (fun s => !s.isEmpty)

/-- Human shape the specification prescribes: the non-empty enabled fields
in fixed order, each wrapped in brackets, concatenated, and the message
appended last after a single space exactly when its flag is true. -/
def specTerminal (fields : LogFieldConfig) (ctx : Context) (env : Env)
    (level : LogLevel) (message : String) (loc : SourceLocation) : String :=
  String.join ((specTerminalParts fields ctx env level loc).map bracketed) ++
  (if fields.includeMessage then " " ++ message else "")

/-- A concatenation whose left part is non-empty is non-empty. -/
theorem isEmpty_false_of_left (s t : String) (h : s ≠ "") : (s ++ t).isEmpty = false := by
  rw [Bool.eq_false_iff]
  intro hx
  rw [String.isEmpty_iff] at hx
  apply h
  apply String.ext
  have hd := congrArg String.data hx
  rw [String.data_append] at hd
  exact (List.append_eq_nil.mp hd).1

/-- A concatenation whose left part is non-empty differs from the empty
string. -/
theorem append_ne_empty_of_left (s t : String) (h : s ≠ "") : s ++ t ≠ "" := by
  intro hx
  apply h
  apply String.ext
  have hd := congrArg String.data hx
  rw [String.data_append] at hd
  exact (List.append_eq_nil.mp hd).1

/-- A concatenation whose right part is non-empty is non-empty. -/
theorem isEmpty_false_of_right (s t : String) (h : t ≠ "") : (s ++ t).isEmpty = false := by
  rw [Bool.eq_false_iff]
  intro hx
  rw [String.isEmpty_iff] at hx
  apply h
  apply String.ext
  have hd := congrArg String.data hx
  rw [String.data_append] at hd
  exact (List.append_eq_nil.mp hd).2

/-- The PID-marked field content is never empty. -/
theorem pid_isEmpty (s : String) : ("PID:" ++ s).isEmpty = false :=
  isEmpty_false_of_left _ _ (by decide)

/-- The TID-marked field content is never empty. -/
theorem tid_isEmpty (s : String) : ("TID:" ++ s).isEmpty = false :=
  isEmpty_false_of_left _ _ (by decide)

/-- Severity codes are never empty. -/
theorem levelToString_isEmpty (l : LogLevel) : (levelToString l).isEmpty = false := by
  cases l <;> decide

/-- The file:line rendering is never empty, because of the colon. -/
theorem formatFileLine_isEmpty (loc : SourceLocation) : (formatFileLine loc).isEmpty = false := by
  rw [formatFileLine, String.append_assoc]
  exact isEmpty_false_of_right _ _ (append_ne_empty_of_left ":" _ (by decide))

/-- String join distributes over list concatenation. -/
theorem join_append_str (l1 l2 : List String) :
    String.join (l1 ++ l2) = String.join l1 ++ String.join l2 := by
  apply String.ext
  simp [String.join_eq]

/-- Joining the bracketed non-empty survivors of one conditional part whose
content is known non-empty gives the bracketed content when the flag is on. -/
theorem joinPart (flag : Bool) (x : String) (hx : x.isEmpty = false) :
    String.join (List.map bracketed (List.filter (fun s => !s.isEmpty) (if flag then [x] else []))) =
      if flag then bracketed x else "" := by
  cases flag <;> simp [String.join, hx]

/-- Joining the bracketed non-empty survivors of one conditional context
part gives the bracketed content exactly when the flag is on and the
content is non-empty. -/
theorem joinPartCtx (flag : Bool) (x : String) :
    String.join (List.map bracketed (List.filter (fun s => !s.isEmpty) (if flag then [x] else []))) =
      if flag then (if x.isEmpty then "" else bracketed x) else "" := by
  cases flag <;> cases hx : x.isEmpty <;> simp [String.join, hx]

/-- The default field selection: all eight flags on. -/
def allFieldsOn : LogFieldConfig := LogFieldConfig.mk true true true true true true true true

/-- C2: for every field selection, context, severity, call site and message,
the human-readable formatter concatenates the enabled fields in the fixed
order time, app, module, process id, thread id, level, file:line, each
non-empty one wrapped in square brackets, then appends the message after a
single space exactly when the message flag is true; and with all fields on,
app App, module Mod, level Info, file a.cpp line 10 and message hi, the
output is the bracketed pattern ending in the space-separated message.
The hypothesis states that the rendered wall-clock string is non-empty, as
it always is for the fixed date format of getCurrentTimeString. -/
theorem formatTerminal_shape (fields : LogFieldConfig) (ctx : Context) (env : Env)
    (level : LogLevel) (message : String) (loc : SourceLocation)
    (ht : env.timeString.isEmpty = false) :
    formatTerminal fields ctx env level message loc =
      specTerminal fields ctx env level message loc ∧
    formatTerminal allFieldsOn (Context.mk "App" "Mod")
        (Env.mk "2025-01-01 12:00:00.000" "140191625285184" 4242)
        LogLevel.Info "hi" (SourceLocation.mk "a.cpp" 10) =
      "[2025-01-01 12:00:00.000][App][Mod][PID:4242][TID:140191625285184][INF][a.cpp:10] hi" := by
  constructor
  · rw [specTerminal, specTerminalParts]
    simp only [List.filter_append, List.map_append, join_append_str]
    rw [joinPart _ _ ht, joinPartCtx, joinPartCtx, joinPart _ _ (pid_isEmpty _),
      joinPart _ _ (tid_isEmpty _), joinPart _ _ (levelToString_isEmpty _),
      joinPart _ _ (formatFileLine_isEmpty _)]
    simp [formatTerminal, String.append_assoc]
  · rfl

/-- Witness for C2 at a concrete record with a non-empty time string. -/
theorem formatTerminal_shape_witness :
    ("2025-01-01 12:00:00.000" : String).isEmpty = false ∧
    formatTerminal allFieldsOn (Context.mk "App" "Mod")
        (Env.mk "2025-01-01 12:00:00.000" "140191625285184" 4242)
        LogLevel.Info "hi" (SourceLocation.mk "a.cpp" 10) =
      specTerminal allFieldsOn (Context.mk "App" "Mod")
        (Env.mk "2025-01-01 12:00:00.000" "140191625285184" 4242)
        LogLevel.Info "hi" (SourceLocation.mk "a.cpp" 10) :=
  ⟨by decide,
    (formatTerminal_shape allFieldsOn (Context.mk "App" "Mod")
      (Env.mk "2025-01-01 12:00:00.000" "140191625285184" 4242)
      LogLevel.Info "hi" (SourceLocation.mk "a.cpp" 10) (by decide)).1⟩

/-- Logging mode (Logger::Mode). -/
inductive Mode where
  | Sync
  | Async
deriving DecidableEq, Repr

/-- Abstract behavior of a caller-supplied network adapter
(NetworkSinkInterface): whether isConnected reports a live connection.
Payloads passed to sendLog are tracked separately as sink effects. -/
structure NetworkSinkInterface where
  isConnected : Bool
deriving DecidableEq, Repr

/-- Logger configuration (Logger::Config), field order and defaults as in
the source. -/
structure Config where
  format : OutputFormat := OutputFormat.Terminal
  fields : LogFieldConfig := {}
  asyncMode : Mode := Mode.Sync
  logToConsole : Bool := true
  logFilePath : Option String := none
  networkAdapter : Option NetworkSinkInterface := none
  asyncQueueSize : Nat := 8192
  asyncThreadCount : Nat := 1
deriving DecidableEq, Repr

/-- Logger::toSpdlogLevel as the numeric spdlog level values: trace 0,
debug 1, info 2, warn 3, err 4, critical 5, off 6. -/
def toSpdlogLevel (level : LogLevel) : Nat :=
  match level with
  | LogLevel.Off => 6
  | LogLevel.Trace => 0
  | LogLevel.Debug => 1
  | LogLevel.Info => 2
  | LogLevel.Warning => 3
  | LogLevel.Error => 4
  | LogLevel.Critical => 5

/-- The formatted record Logger::log hands to the wrapped spdlog logger:
the structured object under Json format or the rendered terminal line. -/
inductive FormattedMsg where
  | json : JsonObj → FormattedMsg
  | terminal : String → FormattedMsg
deriving DecidableEq, Repr

/-- The state Logger::log consults: the configuration, the context, and the
minimum level installed on the wrapped spdlog logger (trace = 0 right after
construction; setLevel stores toSpdlogLevel of its argument). -/
structure LoggerState where
  config : Config
  context : Context
  minLevel : Nat
deriving DecidableEq, Repr

/-- Logger::setLevel: installs toSpdlogLevel of the severity as the spdlog
logger minimum level. -/
def Logger.setLevel (st : LoggerState) (level : LogLevel) : LoggerState :=
  LoggerState.mk st.config st.context (toSpdlogLevel level)

/-- Observable effects of one Logger::log call: the formatting operations
performed on the calling thread, and the formatted records the wrapped
spdlog logger passes on toward its sinks. -/
structure LogEffects where
  formats : List FormattedMsg
  delivered : List FormattedMsg
deriving DecidableEq, Repr

/-- Logger::log: formats the message unconditionally (Json or Terminal
according to the configured format) on the calling thread, then calls the
spdlog logger, whose level check passes the record toward the sinks exactly
when the numeric severity is at least the installed minimum level. -/
def Logger.log (st : LoggerState) (env : Env) (level : LogLevel)
    (message : String) (loc : SourceLocation) : LogEffects :=
  let formatted :=
    if st.config.format = OutputFormat.Json then
      FormattedMsg.json (formatJson st.config.fields st.context env level message loc)
    else
      FormattedMsg.terminal (formatTerminal st.config.fields st.context env level message loc)
  LogEffects.mk [formatted]
    (if st.minLevel ≤ toSpdlogLevel level then [formatted] else [])

/-- C3 counterexample: with minimum severity Info installed via setLevel, a
Trace call is strictly below the minimum, yet Logger::log still performs a
formatting operation before the level check inside the spdlog logger call,
contradicting the claim that it returns immediately with no formatting. -/
theorem log_below_min_still_formats :
    toSpdlogLevel LogLevel.Trace < toSpdlogLevel LogLevel.Info ∧
    (Logger.log
        (Logger.setLevel (LoggerState.mk {} {} 0) LogLevel.Info)
        (Env.mk "2025-01-01 12:00:00.000" "140191625285184" 4242)
        LogLevel.Trace "m" (SourceLocation.mk "a.cpp" 1)).formats ≠ [] := by
  exact ⟨by decide, by decide⟩

/-- C3 amended: for every call whose severity is strictly below the
installed minimum level, no record is passed toward any sink (so no sink
receives any call for it), but the record is still formatted on the calling
thread: the filtering happens inside the wrapped spdlog logger after
formatting, not as an early return. -/
theorem log_below_min_no_sink (st : LoggerState) (env : Env) (level : LogLevel)
    (message : String) (loc : SourceLocation)
    (h : toSpdlogLevel level < st.minLevel) :
    (Logger.log st env level message loc).delivered = [] ∧
    (Logger.log st env level message loc).formats ≠ [] := by
  constructor
  · simp only [Logger.log]
    rw [if_neg (Nat.not_le.mpr h)]
  · simp [Logger.log]

/-- Witness for the amended C3 at a concrete filtered call. -/
theorem log_below_min_no_sink_witness :
    toSpdlogLevel LogLevel.Trace <
      (Logger.setLevel (LoggerState.mk {} {} 0) LogLevel.Info).minLevel ∧
    (Logger.log (Logger.setLevel (LoggerState.mk {} {} 0) LogLevel.Info)
        (Env.mk "t" "9" 1) LogLevel.Trace "m" (SourceLocation.mk "a.cpp" 1)).delivered = [] :=
  ⟨by decide,
    (log_below_min_no_sink (Logger.setLevel (LoggerState.mk {} {} 0) LogLevel.Info)
      (Env.mk "t" "9" 1) LogLevel.Trace "m" (SourceLocation.mk "a.cpp" 1) (by decide)).1⟩

/-- The formatter spdlog attaches to every sink here has pattern %v: the
sink-level rendering of a record is its message text followed by the
default end-of-line terminator. -/
def sinkFormat (msg : String) : String := msg ++ "\n"

/-- NetworkSink::sink_it_: when an adapter is installed and its isConnected
check reports true, the record is rendered by the sink formatter and passed
to sendLog (tracked by appending to the list of sent payloads); otherwise
nothing is sent and the record is dropped. The function is total: no error
path exists. -/
def NetworkSink.sinkIt (adapter : Option NetworkSinkInterface) (msg : String)
    (sent : List String) : List String :=
  match adapter with
  | some a => if a.isConnected then sent ++ [sinkFormat msg] else sent
  | none => sent

/-- C6: for every formatted record handed to the network sink with an
installed adapter, if isConnected reports false the record is silently
dropped -- sendLog is not invoked and the sent list is unchanged, with no
error raised since the function is total -- and if isConnected reports true,
sendLog is invoked exactly once with the sink-rendered record. -/
theorem networkSink_drop_or_send (a : NetworkSinkInterface) (msg : String)
    (sent : List String) :
    (a.isConnected = false → NetworkSink.sinkIt (some a) msg sent = sent) ∧
    (a.isConnected = true →
      NetworkSink.sinkIt (some a) msg sent = sent ++ [sinkFormat msg]) := by
  constructor <;> intro h <;> simp [NetworkSink.sinkIt, h]

/-- Witness for C6 on both a disconnected and a connected adapter. -/
theorem networkSink_drop_or_send_witness :
    ((NetworkSinkInterface.mk false).isConnected = false ∧
      NetworkSink.sinkIt (some (NetworkSinkInterface.mk false)) "m" [] = []) ∧
    ((NetworkSinkInterface.mk true).isConnected = true ∧
      NetworkSink.sinkIt (some (NetworkSinkInterface.mk true)) "m" [] = [sinkFormat "m"]) :=
  ⟨⟨rfl, (networkSink_drop_or_send (NetworkSinkInterface.mk false) "m" []).1 rfl⟩,
    ⟨rfl, (networkSink_drop_or_send (NetworkSinkInterface.mk true) "m" []).2 rfl⟩⟩

/-- Modelled from the spec: the asynchronous pipeline (spdlog thread pool:
bounded multi-producer queue drained by a fixed worker pool) is external
library code not under src. Section 4.4 of the spec describes it as a
bounded queue of already-formatted records plus workers that dequeue one
record at a time and dispatch it to every sink, with flush draining all
records enqueued before the call and then flushing the sinks. The state
tracks the queue contents, the records a recording sink has received, and
whether the sinks have been flushed. -/
structure AsyncState where
  queue : List String
  sinkReceived : List String
  sinksFlushed : Bool
deriving DecidableEq, Repr

/-- Modelled from the spec: one worker iteration dequeues the oldest record
and dispatches it to the sinks, which the recording sink observes. -/
def workerStep (s : AsyncState) : AsyncState :=
  match s.queue with
  | [] => s
  | m :: rest => AsyncState.mk rest (s.sinkReceived ++ [m]) s.sinksFlushed

/-- Iterated worker steps. -/
def drainN : Nat → AsyncState → AsyncState
  | 0, s => s
  | n + 1, s => drainN n (workerStep s)

/-- Modelled from the spec: flush drains every record enqueued before the
call and then invokes flush on every sink, before returning. -/
def flushAsync (s : AsyncState) : AsyncState :=
  let d := drainN s.queue.length s
  AsyncState.mk d.queue d.sinkReceived true

/-- Modelled from the spec: enqueueing one formatted record appends it at
the back of the queue. -/
def enqueueRecord (s : AsyncState) (m : String) : AsyncState :=
  AsyncState.mk (s.queue ++ [m]) s.sinkReceived s.sinksFlushed

/-- Enqueue a list of records in order. -/
def enqueueAll (s : AsyncState) (msgs : List String) : AsyncState :=
  msgs.foldl enqueueRecord s

/-- Draining as many steps as the queue is long empties the queue and hands
every queued record, in order, to the sinks. -/
theorem drainN_dispatches (q r : List String) (f : Bool) :
    drainN q.length (AsyncState.mk q r f) = AsyncState.mk [] (r ++ q) f := by
  induction q generalizing r with
  | nil => simp [drainN]
  | cons m rest ih =>
    show drainN (rest.length + 1) (AsyncState.mk (m :: rest) r f) = _
    rw [drainN, show workerStep (AsyncState.mk (m :: rest) r f)
        = AsyncState.mk rest (r ++ [m]) f from rfl, ih (r ++ [m])]
    simp

/-- Enqueueing a list of records appends it to the queue. -/
theorem enqueueAll_queue (q r : List String) (f : Bool) (msgs : List String) :
    enqueueAll (AsyncState.mk q r f) msgs = AsyncState.mk (q ++ msgs) r f := by
  induction msgs generalizing q with
  | nil => simp [enqueueAll]
  | cons m rest ih =>
    show enqueueAll (enqueueRecord (AsyncState.mk q r f) m) rest = _
    rw [show enqueueRecord (AsyncState.mk q r f) m = AsyncState.mk (q ++ [m]) r f from rfl,
      ih (q ++ [m])]
    simp

/-- C4: under async delivery, every record enqueued before a flush call has
been dispatched to the sinks and the sinks have been flushed before flush
returns: from any state, flush empties the queue, appends exactly the
queued records to what the recording sink had received, and marks the
sinks flushed; in particular, after enqueueing a list of records from the
initial empty state and flushing, the recording sink has received exactly
those records. -/
theorem flush_completeness (s : AsyncState) (records : List String) :
    (flushAsync s).sinkReceived = s.sinkReceived ++ s.queue ∧
    (flushAsync s).queue = [] ∧
    (flushAsync s).sinksFlushed = true ∧
    (flushAsync (enqueueAll (AsyncState.mk [] [] false) records)).sinkReceived = records := by
  rcases s with ⟨q, r, f⟩
  refine ⟨?_, ?_, rfl, ?_⟩
  · show (flushAsync (AsyncState.mk q r f)).sinkReceived = r ++ q
    rw [flushAsync]
    simp [drainN_dispatches]
  · show (flushAsync (AsyncState.mk q r f)).queue = []
    rw [flushAsync]
    simp [drainN_dispatches]
  · rw [enqueueAll_queue, flushAsync]
    simp [drainN_dispatches]

/-- Result of one bounded enqueue attempt under the block overflow policy:
either the record went in, or the caller blocks until space is available.
There is no constructor for discarding the record. -/
inductive EnqueueResult where
  | enqueued : AsyncState → EnqueueResult
  | blocked : EnqueueResult
deriving DecidableEq, Repr

/-- Modelled from the spec: the bounded enqueue of the async pipeline under
the block overflow policy: below capacity the record is appended at the
back; at capacity the caller blocks -- the state is unchanged and the
record is not dropped. -/
def enqueueBounded (cap : Nat) (s : AsyncState) (m : String) : EnqueueResult :=
  if s.queue.length < cap then EnqueueResult.enqueued (enqueueRecord s m)
  else EnqueueResult.blocked

/-- The kinds of sinks initializeLogger builds: console, file with its path
and the truncate flag its constructor receives, and network. -/
inductive SinkSpec where
  | console : SinkSpec
  | file : String → Bool → SinkSpec
  | network : SinkSpec
deriving DecidableEq, Repr

/-- Whether a sink spec is the file sink. -/
def SinkSpec.isFile : SinkSpec → Bool
  | SinkSpec.file _ _ => true
  | _ => false

/-- The spdlog overflow policy constant passed to the async logger. -/
inductive OverflowPolicy where
  | block
  | overrunOldest
deriving DecidableEq, Repr

/-- The spdlog global registry holding the process-wide thread pool that
spdlog::init_thread_pool replaces and spdlog::thread_pool hands out.
Pools are distinguished by generation number; the registry keeps the only
strong reference to the current pool, while async loggers hold weak
references, so replacing the pool destroys the previous one. -/
structure SpdlogRegistry where
  poolGen : Nat
deriving DecidableEq, Repr

/-- spdlog::init_thread_pool: replaces the registry's global thread pool by
a freshly created one and returns the updated registry together with the
new pool. -/
def initThreadPool (reg : SpdlogRegistry) : SpdlogRegistry × Nat :=
  (SpdlogRegistry.mk (reg.poolGen + 1), reg.poolGen + 1)

/-- The sink set Logger::initializeLogger builds from the configuration, in
source order: console when logToConsole, then the file sink constructed
over the configured path with the truncate argument hardcoded to the
literal true, then the network sink when an adapter is configured. -/
def sinksOf (cfg : Config) : List SinkSpec :=
  (if cfg.logToConsole then [SinkSpec.console] else []) ++
  (match cfg.logFilePath with
   | some p => [SinkSpec.file p true]
   | none => []) ++
  (match cfg.networkAdapter with
   | some _ => [SinkSpec.network]
   | none => [])

/-- Result of Logger::initializeLogger: the sink set, and under Async mode
the overflow policy passed to the async logger (the source passes
spdlog::async_overflow_policy::block) together with the logger's weak
reference to the global thread pool freshly created by init_thread_pool;
the minimum level is set to trace (0). -/
structure LoggerInit where
  sinks : List SinkSpec
  overflow : Option OverflowPolicy
  poolRef : Option Nat
  minLevel : Nat
deriving DecidableEq, Repr

/-- Logger::initializeLogger: builds the sink set, then under Async mode
calls spdlog::init_thread_pool (replacing the global pool) and constructs
the async logger with the block overflow policy over the current global
pool; under Sync mode constructs a plain logger. Returns the logger
initialization and the updated registry. -/
def initLogger (cfg : Config) (reg : SpdlogRegistry) : LoggerInit × SpdlogRegistry :=
  if cfg.asyncMode = Mode.Async then
    let p := initThreadPool reg
    (LoggerInit.mk (sinksOf cfg) (some OverflowPolicy.block) (some p.2) 0, p.1)
  else
    (LoggerInit.mk (sinksOf cfg) none none 0, reg)

/-- C5: the source constructs its async logger with the block overflow
policy, and under the block policy an enqueue into a full bounded queue
blocks the caller -- the state is unchanged and no record is dropped --
while after a worker drains one record the same enqueue succeeds and
appends the record at the back; in general an enqueue either blocks
without dropping or appends the record, never discards it. -/
theorem backpressure_blocks_never_drops (cfg : Config) (reg : SpdlogRegistry)
    (cap : Nat) (s : AsyncState) (m : String)
    (hasync : cfg.asyncMode = Mode.Async)
    (hfull : s.queue.length = cap) (hcap : 0 < cap) :
    (initLogger cfg reg).1.overflow = some OverflowPolicy.block ∧
    enqueueBounded cap s m = EnqueueResult.blocked ∧
    enqueueBounded cap (workerStep s) m =
      EnqueueResult.enqueued (enqueueRecord (workerStep s) m) ∧
    (∀ (c : Nat) (t : AsyncState) (x : String) (t' : AsyncState),
      enqueueBounded c t x = EnqueueResult.enqueued t' →
        t'.queue = t.queue ++ [x]) := by
  refine ⟨?_, ?_, ?_, ?_⟩
  · simp [initLogger, hasync]
  · simp [enqueueBounded, hfull]
  · rcases s with ⟨q, r, f⟩
    rcases q with _ | ⟨a, rest⟩
    · exfalso
      simp at hfull
      omega
    · have hlen : (workerStep (AsyncState.mk (a :: rest) r f)).queue.length < cap := by
        simp [workerStep] at *
        omega
      simp [enqueueBounded, hlen]
  · intro c t x t' h
    rw [enqueueBounded] at h
    by_cases hc : t.queue.length < c
    · rw [if_pos hc] at h
      cases h
      rfl
    · rw [if_neg hc] at h
      cases h

/-- Witness for C5 at a concrete full queue of capacity 2. -/
theorem backpressure_blocks_never_drops_witness :
    (Config.mk OutputFormat.Terminal {} Mode.Async true none none 8192 1).asyncMode
        = Mode.Async ∧
    (AsyncState.mk ["a", "b"] [] false).queue.length = 2 ∧ 0 < 2 ∧
    enqueueBounded 2 (AsyncState.mk ["a", "b"] [] false) "c" = EnqueueResult.blocked :=
  ⟨rfl, rfl, by decide,
    (backpressure_blocks_never_drops
      (Config.mk OutputFormat.Terminal {} Mode.Async true none none 8192 1)
      (SpdlogRegistry.mk 0) 2 (AsyncState.mk ["a", "b"] [] false) "c"
      rfl rfl (by decide)).2.1⟩

/-- A constructed Logger as the constructors leave it: the stored
configuration and context plus the result of its own initializeLogger
run. -/
structure LoggerObj where
  config : Config
  context : Context
  init : LoggerInit
deriving DecidableEq, Repr

/-- The Logger constructor: stores configuration and context, then runs
initializeLogger against the current spdlog registry. -/
def mkLogger (cfg : Config) (ctx : Context) (reg : SpdlogRegistry) :
    LoggerObj × SpdlogRegistry :=
  let r := initLogger cfg reg
  (LoggerObj.mk cfg ctx r.1, r.2)

/-- The Logger copy constructor: copies the configuration and context of
the other logger and runs initializeLogger afresh. -/
def copyLogger (other : LoggerObj) (reg : SpdlogRegistry) :
    LoggerObj × SpdlogRegistry :=
  mkLogger other.config other.context reg

/-- Logger::WithConfigFrom: copies the configuration of the source logger
and constructs a new logger with it and the new context. -/
def WithConfigFrom (source : LoggerObj) (newContext : Context)
    (reg : SpdlogRegistry) : LoggerObj × SpdlogRegistry :=
  mkLogger source.config newContext reg

/-- An async logger's pipeline is functional exactly when its weak pool
reference still matches the pool the registry currently keeps alive (the
registry holds the only strong reference, so an older pool is gone). -/
def pipelineFunctional (lg : LoggerObj) (reg : SpdlogRegistry) : Prop :=
  ∀ g, lg.init.poolRef = some g → reg.poolGen = g

/-- An async configuration with all other fields at their defaults. -/
def asyncConfig : Config :=
  Config.mk OutputFormat.Terminal {} Mode.Async true none none 8192 1

/-- C7 counterexample: constructing a copy of an async logger runs
initializeLogger again, whose init_thread_pool call replaces the process
global spdlog thread pool; the source logger's weak pool reference then no
longer matches the registry, so its pipeline is not left functional,
contradicting the claim that copy construction leaves the source logger's
pipeline unchanged and functional. -/
theorem copy_construction_kills_source_pipeline :
    ¬ pipelineFunctional
        (mkLogger asyncConfig (Context.mk "" "") (SpdlogRegistry.mk 0)).1
        (copyLogger (mkLogger asyncConfig (Context.mk "" "") (SpdlogRegistry.mk 0)).1
          (mkLogger asyncConfig (Context.mk "" "") (SpdlogRegistry.mk 0)).2).2 := by
  intro hfn
  have h := hfn 1 rfl
  exact absurd h (by decide)

/-- C7 amended: copy construction (here through the WithConfigFrom factory)
duplicates the Configuration, installs the new Context, and reinitializes
its own sink set from the configuration; under async mode the copy receives
a fresh thread pool not shared with the source, but because the pool is the
process-global spdlog pool, constructing the copy replaces it and the
source logger's async pipeline is no longer functional. -/
theorem withConfigFrom_reinitializes (source : LoggerObj) (newCtx : Context)
    (reg : SpdlogRegistry) (g : Nat)
    (hg : source.init.poolRef = some g) (hle : g ≤ reg.poolGen)
    (hasync : source.config.asyncMode = Mode.Async) :
    (WithConfigFrom source newCtx reg).1.config = source.config ∧
    (WithConfigFrom source newCtx reg).1.context = newCtx ∧
    (WithConfigFrom source newCtx reg).1.init.sinks = sinksOf source.config ∧
    (WithConfigFrom source newCtx reg).1.init.poolRef = some (reg.poolGen + 1) ∧
    (WithConfigFrom source newCtx reg).1.init.poolRef ≠ source.init.poolRef ∧
    ¬ pipelineFunctional source (WithConfigFrom source newCtx reg).2 := by
  refine ⟨rfl, rfl, ?_, ?_, ?_, ?_⟩
  · simp [WithConfigFrom, mkLogger, initLogger, hasync]
  · simp [WithConfigFrom, mkLogger, initLogger, hasync, initThreadPool]
  · simp [WithConfigFrom, mkLogger, initLogger, hasync, initThreadPool, hg]
    omega
  · intro hfn
    have h := hfn g hg
    have h2 : (WithConfigFrom source newCtx reg).2.poolGen = reg.poolGen + 1 := by
      simp [WithConfigFrom, mkLogger, initLogger, hasync, initThreadPool]
    omega

/-- Witness for the amended C7 on a concrete async source logger. -/
theorem withConfigFrom_reinitializes_witness :
    (mkLogger asyncConfig (Context.mk "" "") (SpdlogRegistry.mk 0)).1.init.poolRef = some 1 ∧
    1 ≤ (mkLogger asyncConfig (Context.mk "" "") (SpdlogRegistry.mk 0)).2.poolGen ∧
    (mkLogger asyncConfig (Context.mk "" "") (SpdlogRegistry.mk 0)).1.config.asyncMode
      = Mode.Async ∧
    (WithConfigFrom (mkLogger asyncConfig (Context.mk "" "") (SpdlogRegistry.mk 0)).1
        (Context.mk "Api" "") (mkLogger asyncConfig (Context.mk "" "") (SpdlogRegistry.mk 0)).2).1.config
      = (mkLogger asyncConfig (Context.mk "" "") (SpdlogRegistry.mk 0)).1.config :=
  ⟨rfl, by decide, rfl,
    (withConfigFrom_reinitializes
      (mkLogger asyncConfig (Context.mk "" "") (SpdlogRegistry.mk 0)).1
      (Context.mk "Api" "")
      (mkLogger asyncConfig (Context.mk "" "") (SpdlogRegistry.mk 0)).2
      1 rfl (by decide) rfl).1⟩

/-- The file sink, if any, that initializeLogger built. -/
def fileSinkOf (ini : LoggerInit) : Option SinkSpec :=
  ini.sinks.find? SinkSpec.isFile

/-- C8 counterexample: over every configuration, the file sink that
initializeLogger builds carries the truncate flag as the constant true,
since the source hardcodes the second constructor argument of the file
sink; truncate-on-open is therefore a fixed behavior and not a
configuration choice available to the caller -- no field of Config can
change it. -/
theorem fileTruncate_fixed_not_configurable :
    (fun (cfg : Config) (reg : SpdlogRegistry) => fileSinkOf (initLogger cfg reg).1) =
    (fun (cfg : Config) (_ : SpdlogRegistry) =>
      match cfg.logFilePath with
      | some p => some (SinkSpec.file p true)
      | none => none) := by
  funext cfg reg
  rcases cfg with ⟨fmt, flds, amode, con, fpath, net, qs, tc⟩
  cases amode <;> cases con <;> rcases fpath with _ | p <;> rcases net with _ | a <;>
    simp [initLogger, fileSinkOf, sinksOf, SinkSpec.isFile, List.find?]

/-- C8 amended: when the configuration contains a file path, the sink set
built once at construction contains exactly one file sink, over that path,
opened with truncate hardcoded to true; truncation is an open-time
behavior of construction, never per-write, and is not configurable. -/
theorem fileSink_opened_once (cfg : Config) (reg : SpdlogRegistry) (p : String)
    (hp : cfg.logFilePath = some p) :
    fileSinkOf (initLogger cfg reg).1 = some (SinkSpec.file p true) ∧
    (initLogger cfg reg).1.sinks.filter SinkSpec.isFile = [SinkSpec.file p true] := by
  rcases cfg with ⟨fmt, flds, amode, con, fpath, net, qs, tc⟩
  simp only at hp
  subst hp
  cases amode <;> cases con <;> rcases net with _ | a <;>
    simp [initLogger, fileSinkOf, sinksOf, SinkSpec.isFile, List.find?]

/-- Witness for the amended C8 on a concrete configuration with a path. -/
theorem fileSink_opened_once_witness :
    (Config.mk OutputFormat.Terminal {} Mode.Sync true (some "app.log") none 8192 1).logFilePath
      = some "app.log" ∧
    fileSinkOf
        (initLogger (Config.mk OutputFormat.Terminal {} Mode.Sync true (some "app.log") none 8192 1)
          (SpdlogRegistry.mk 0)).1
      = some (SinkSpec.file "app.log" true) :=
  ⟨rfl,
    (fileSink_opened_once
      (Config.mk OutputFormat.Terminal {} Mode.Sync true (some "app.log") none 8192 1)
      (SpdlogRegistry.mk 0) "app.log" rfl).1⟩

/-- Running a sequence of conditional assignments with pairwise distinct
keys, all fresh for the starting object, appends exactly the key-value
pairs of the steps whose flag is set, in sequence order. -/
theorem runSteps_eq (steps : List JStep) (obj : JsonObj)
    (hfresh : ∀ s ∈ steps, ∀ p ∈ obj, p.1 ≠ s.key)
    (hnodup : (steps.map JStep.key).Nodup) :
    runSteps obj steps =
      obj ++ (List.filter (fun s => s.flag) steps).map (fun s => (s.key, s.val)) := by
  induction steps generalizing obj with
  | nil => simp [runSteps]
  | cons s rest ih =>
    have hrun : runSteps obj (s :: rest) = runSteps (jsonStep s.flag s.key s.val obj) rest := rfl
    rw [hrun]
    simp only [List.map_cons, List.nodup_cons] at hnodup
    cases hf : s.flag with
    | false =>
      have hstep : jsonStep false s.key s.val obj = obj := by simp [jsonStep]
      rw [hstep, ih obj (fun t ht p hp => hfresh t (List.mem_cons_of_mem s ht) p hp) hnodup.2]
      simp [List.filter_cons, hf]
    | true =>
      have hstep : jsonStep true s.key s.val obj = obj ++ [(s.key, s.val)] := by
        simp [jsonStep, jsonInsert_fresh obj s.key s.val
          (fun p hp => hfresh s (List.mem_cons_self s rest) p hp)]
      rw [hstep]
      have hfresh' : ∀ t ∈ rest, ∀ p ∈ obj ++ [(s.key, s.val)], p.1 ≠ t.key := by
        intro t ht p hp
        rcases List.mem_append.mp hp with hl | hr
        · exact hfresh t (List.mem_cons_of_mem s ht) p hl
        · have hps : p = (s.key, s.val) := by simpa using hr
          subst hps
          intro hc
          apply hnodup.1
          rw [show s.key = t.key from hc]
          exact List.mem_map_of_mem JStep.key ht
      rw [ih (obj ++ [(s.key, s.val)]) hfresh' hnodup.2]
      simp [List.filter_cons, hf, List.append_assoc]

/-- C9: formatting is deterministic and idempotent: two format calls over
the same record snapshot -- same severity, context, field selection, call
site, message, and the same sampled timestamp, thread id and process id --
produce byte-identical output, in the structured and the human shape.
The formatters are functions of exactly these inputs and read no other
state. -/
theorem formatting_deterministic (fields : LogFieldConfig) (ctx : Context)
    (level : LogLevel) (message : String) (loc : SourceLocation) (e1 e2 : Env)
    (ht : e1.timeString = e2.timeString) (htid : e1.threadId = e2.threadId)
    (hpid : e1.processId = e2.processId) :
    formatJson fields ctx e1 level message loc = formatJson fields ctx e2 level message loc ∧
    formatTerminal fields ctx e1 level message loc
      = formatTerminal fields ctx e2 level message loc := by
  have he : e1 = e2 := by
    cases e1
    cases e2
    simp_all
  rw [he]
  exact ⟨rfl, rfl⟩

/-- Witness for C9 on two equal record snapshots. -/
theorem formatting_deterministic_witness :
    (Env.mk "t" "9" 1).timeString = (Env.mk "t" "9" 1).timeString ∧
    formatJson allFieldsOn (Context.mk "App" "Mod") (Env.mk "t" "9" 1)
        LogLevel.Info "hi" (SourceLocation.mk "a.cpp" 10)
      = formatJson allFieldsOn (Context.mk "App" "Mod") (Env.mk "t" "9" 1)
        LogLevel.Info "hi" (SourceLocation.mk "a.cpp" 10) :=
  ⟨rfl,
    (formatting_deterministic allFieldsOn (Context.mk "App" "Mod") LogLevel.Info "hi"
      (SourceLocation.mk "a.cpp" 10) (Env.mk "t" "9" 1) (Env.mk "t" "9" 1)
      rfl rfl rfl).1⟩

/-- The value bound to a key in a JSON object (first binding wins, as in
the duplicate-free objects formatJson builds). -/
def jsonLookup (obj : JsonObj) (k : String) : Option JsonValue :=
  (obj.find? (fun p => p.1 == k)).map Prod.snd

/-- C10: whenever their flags are true, the structured output binds
process_id to the decimal-string rendering of the process id and thread_id
to the stream rendering of the thread identifier -- both as JSON string
values, never as JSON numbers. -/
theorem json_ids_rendered_as_strings (fields : LogFieldConfig) (ctx : Context)
    (env : Env) (level : LogLevel) (message : String) (loc : SourceLocation)
    (hp : fields.includeProcessId = true) (htid : fields.includeThreadId = true) :
    jsonLookup (formatJson fields ctx env level message loc) "process_id"
      = some (JsonValue.str (toString env.processId)) ∧
    jsonLookup (formatJson fields ctx env level message loc) "thread_id"
      = some (JsonValue.str env.threadId) := by
  rw [formatJson_eq_runSteps,
    runSteps_eq (formatJsonSteps fields ctx env level message loc) []
      (by intro s hs p hp2; cases hp2)
      (by simp [formatJsonSteps])]
  simp only [formatJsonSteps, hp, htid, List.nil_append]
  cases h1 : fields.includeTime <;>
    cases h2 : (fields.includeAppName && !ctx.appName.isEmpty) <;>
      exact ⟨rfl, rfl⟩

/-- Witness for C10 with both id flags on. -/
theorem json_ids_rendered_as_strings_witness :
    allFieldsOn.includeProcessId = true ∧
    jsonLookup
        (formatJson allFieldsOn (Context.mk "App" "Mod") (Env.mk "t" "9" 42)
          LogLevel.Info "hi" (SourceLocation.mk "a.cpp" 10)) "process_id"
      = some (JsonValue.str (toString (42 : Int))) :=
  ⟨rfl,
    (json_ids_rendered_as_strings allFieldsOn (Context.mk "App" "Mod") (Env.mk "t" "9" 42)
      LogLevel.Info "hi" (SourceLocation.mk "a.cpp" 10) rfl rfl).1⟩
